import Mathlib

/-
Verification of the dotslash manifest parser (`src/config.rs`).

The embedding is shallow: strings are lists of characters, the generic
JSON-like value tree is an inductive type, and every operation of the
source is a computable Lean function.  Collaborators that live outside
the provided source file (the permissive JSON document parser, the
`Digest`, `ArtifactPath` and `ArtifactFormat` value types) are modelled
from the specification, each marked as such in its doc comment.
-/

/-- Strings of the source are embedded as lists of characters. -/
abbrev Str := List Char

/-- Embedding of Rust `str::strip_prefix`: if `p` is a prefix of `s`,
return the remainder, otherwise `none`. -/
def stripPre : Str → Str → Option Str
  | [], s => some s
  | _ :: _, [] => none
  | p :: ps, c :: cs => if p = c then stripPre ps cs else none

/-- The mandatory first line of a DotSlash file (`REQUIRED_HEADER`). -/
def REQUIRED_HEADER : Str := "#!/usr/bin/env dotslash".data

/-- The two-character CRLF line terminator. -/
def crlfLit : Str := ['\r', '\n']

/-- The one-character LF line terminator. -/
def lfLit : Str := ['\n']

/-- Header stripping stage of `parse_file`: strip `REQUIRED_HEADER`,
then a CRLF terminator, or failing that an LF terminator, exactly as
`data.strip_prefix(REQUIRED_HEADER).and_then(|rest| rest.strip_prefix("\r\n").or_else(|| rest.strip_prefix('\n')))`. -/
def stripHeader (d : Str) : Option Str :=
  match stripPre REQUIRED_HEADER d with
  | none => none
  | some rest =>
    match stripPre crlfLit rest with
    | some r => some r
    | none => stripPre lfLit rest

/-- Modelled from the spec: the generic, order-preserving value tree of
the permissive JSON document parser (objects, arrays, strings, numbers,
booleans, null).  Objects are association lists in document order.
Numbers are modelled as integers; fractional literals are not modelled. -/
inductive Value where
  | null : Value
  | bool : Bool → Value
  | num : Int → Value
  | str : Str → Value
  | arr : List Value → Value
  | obj : List (Str × Value) → Value

/-- Look a key up in an object's association list (first match). -/
def lookupKey : List (Str × Value) → Str → Option Value
  | [], _ => none
  | (k', v) :: rest, k => if k' = k then some v else lookupKey rest k

/-- Insert a key into an object under construction: an existing key is
overwritten in place, a new key is appended at the end. -/
def insertKV : List (Str × Value) → Str → Value → List (Str × Value)
  | [], k, v => [(k, v)]
  | (k', v') :: rest, k, v =>
    if k' = k then (k', v) :: rest else (k', v') :: insertKV rest k v

/-- Remove every pair carrying the given key from an association list. -/
def removeKey (k : Str) : List (Str × Value) → List (Str × Value)
  | [] => []
  | (k', v) :: rest =>
    if k' = k then removeKey k rest else (k', v) :: removeKey k rest

/-- Drop characters up to and including the next LF (used to skip a
line comment). -/
def dropLine : Str → Str
  | [] => []
  | c :: cs => if c = '\n' then cs else dropLine cs

/-- Is the character JSON whitespace? -/
def isWsChar (c : Char) : Bool :=
  c = ' ' || c = '\t' || c = '\n' || c = '\r'

/-- Modelled from the spec: skip whitespace and `//`-style line
comments, as the permissive document parser does.  Fuel bounds the
recursion; one unit per character of input always suffices. -/
def skipWs : Nat → Str → Str
  | 0, s => s
  | fuel + 1, s =>
    match s with
    | [] => []
    | c :: cs =>
      if isWsChar c then skipWs fuel cs
      else if c = '/' then
        match cs with
        | '/' :: rest => skipWs fuel (dropLine rest)
        | _ => c :: cs
      else c :: cs

/-- Skip whitespace and comments with adequate fuel. -/
def skipAll (s : Str) : Str := skipWs (s.length + 1) s

/-- Translate one escape character of a JSON string literal. -/
def escChar : Char → Option Char
  | '\"' => some '\"'
  | '\\' => some '\\'
  | '/' => some '/'
  | 'n' => some '\n'
  | 't' => some '\t'
  | 'r' => some '\r'
  | 'b' => some (Char.ofNat 8)
  | 'f' => some (Char.ofNat 12)
  | _ => none

/-- Parse the body of a JSON string literal (the opening quote already
consumed); returns the decoded content and the input after the closing
quote. -/
def parseStringBody : Str → Option (Str × Str)
  | [] => none
  | c :: cs =>
    if c = '\"' then some ([], cs)
    else if c = '\\' then
      match cs with
      | [] => none
      | e :: cs2 =>
        match escChar e with
        | none => none
        | some ec =>
          match parseStringBody cs2 with
          | none => none
          | some (body, rest) => some (ec :: body, rest)
    else
      match parseStringBody cs with
      | none => none
      | some (body, rest) => some (c :: body, rest)

/-- Take a maximal run of decimal digits from the front of the input. -/
def takeDigits : Str → (List Char × Str)
  | [] => ([], [])
  | c :: cs =>
    if c.isDigit then
      match takeDigits cs with
      | (ds, rest) => (c :: ds, rest)
    else ([], c :: cs)

/-- Numeric value of a run of decimal digits. -/
def digitsVal (ds : List Char) : Nat :=
  ds.foldl (fun a c => a * 10 + (c.toNat - 48)) 0

/-- Parse an integer numeral with optional leading minus sign. -/
def parseNumber : Str → Option (Int × Str)
  | '-' :: rest =>
    match takeDigits rest with
    | ([], _) => none
    | (ds, r) => some (-(digitsVal ds : Int), r)
  | s =>
    match takeDigits s with
    | ([], _) => none
    | (ds, r) => some ((digitsVal ds : Int), r)

/-- Literal `null`. -/
def nullLit : Str := "null".data

/-- Literal `true`. -/
def trueLit : Str := "true".data

/-- Literal `false`. -/
def falseLit : Str := "false".data

mutual

/-- Modelled from the spec: the permissive document parser, a recursive
descent parser over the value tree that additionally tolerates `//`
comments and trailing commas before closing brackets and braces.  Fuel
bounds nesting; each recursive call consumes input, so fuel equal to
the input length suffices. -/
def parseValue : Nat → Str → Option (Value × Str)
  | 0, _ => none
  | fuel + 1, s0 =>
    let s := skipAll s0
    match stripPre nullLit s with
    | some r => some (.null, r)
    | none =>
      match stripPre trueLit s with
      | some r => some (.bool true, r)
      | none =>
        match stripPre falseLit s with
        | some r => some (.bool false, r)
        | none =>
          match s with
          | '\"' :: cs =>
            match parseStringBody cs with
            | none => none
            | some (body, rest) => some (.str body, rest)
          | '\x7b' :: cs => parseObjItems fuel cs []
          | '[' :: cs => parseArrItems fuel cs []
          | rest =>
            match parseNumber rest with
            | none => none
            | some (n, r) => some (.num n, r)

/-- Parse the items of an array (opening bracket already consumed),
accepting a trailing comma before the closing bracket. -/
def parseArrItems : Nat → Str → List Value → Option (Value × Str)
  | 0, _, _ => none
  | fuel + 1, s0, acc =>
    let s := skipAll s0
    match s with
    | ']' :: r => some (.arr acc.reverse, r)
    | _ =>
      match parseValue fuel s with
      | none => none
      | some (v, r1) =>
        let r2 := skipAll r1
        match r2 with
        | ',' :: r3 => parseArrItems fuel r3 (v :: acc)
        | ']' :: r3 => some (.arr (v :: acc).reverse, r3)
        | _ => none

/-- Parse the members of an object (opening brace already consumed),
accepting a trailing comma before the closing brace; a duplicate key
overwrites the earlier value in place. -/
def parseObjItems : Nat → Str → List (Str × Value) → Option (Value × Str)
  | 0, _, _ => none
  | fuel + 1, s0, acc =>
    let s := skipAll s0
    match s with
    | '\x7d' :: r => some (.obj acc, r)
    | '\"' :: cs =>
      match parseStringBody cs with
      | none => none
      | some (k, r1) =>
        let r2 := skipAll r1
        match r2 with
        | ':' :: r3 =>
          match parseValue fuel r3 with
          | none => none
          | some (v, r4) =>
            let acc2 := insertKV acc k v
            let r5 := skipAll r4
            match r5 with
            | ',' :: r6 => parseObjItems fuel r6 acc2
            | '\x7d' :: r6 => some (.obj acc2, r6)
            | _ => none
        | _ => none
    | _ => none

end

/-- Modelled from the spec: the document parser entry point
(`serde_jsonrc::from_str::<Value>`): parse one value and require only
trailing whitespace or comments after it. -/
def jsonFromStr (s : Str) : Option Value :=
  match parseValue (s.length + 1) s with
  | none => none
  | some (v, rest) => if (skipAll rest).isEmpty then some v else none

/-- The closed hash-algorithm enumeration of `config.rs`, with wire
names `blake3` and `sha256` (serde rename attributes). -/
inductive HashAlgorithm where
  | blake3 : HashAlgorithm
  | sha256 : HashAlgorithm

/-- Wire name of `Blake3`. -/
def blake3Lit : Str := "blake3".data

/-- Wire name of `Sha256`. -/
def sha256Lit : Str := "sha256".data

/-- Error message for a hash string outside the closed enumeration. -/
def unknownHashMsg : Str := "unknown variant for field hash".data

/-- Error message for a value of the wrong JSON kind. -/
def wrongTypeMsg (field : Str) : Str :=
  "invalid type for field ".data ++ field

/-- Error message for an absent required field. -/
def missingMsg (field : Str) : Str := "missing field ".data ++ field

/-- Key `size`. -/
def sizeKey : Str := "size".data

/-- Key `hash`. -/
def hashKey : Str := "hash".data

/-- Key `digest`. -/
def digestKey : Str := "digest".data

/-- Key `format`. -/
def formatKey : Str := "format".data

/-- Key `path`. -/
def pathKey : Str := "path".data

/-- Key `providers`. -/
def providersKey : Str := "providers".data

/-- Key `readonly`. -/
def readonlyKey : Str := "readonly".data

/-- Key `name`. -/
def nameKey : Str := "name".data

/-- Key `platforms`. -/
def platformsKey : Str := "platforms".data

/-- The word `entry`, used in an error message. -/
def entryWord : Str := "entry".data

/-- The word `document`, used in an error message. -/
def documentWord : Str := "document".data

/-- Deserialize a `HashAlgorithm` from a value-tree node: the exact
string `blake3` or `sha256`, case-sensitively; anything else fails. -/
def deserializeHash : Value → Except Str HashAlgorithm
  | .str s =>
    if s = blake3Lit then .ok .blake3
    else if s = sha256Lit then .ok .sha256
    else .error unknownHashMsg
  | _ => .error (wrongTypeMsg hashKey)

/-- Serialize a `HashAlgorithm` back to its wire name. -/
def serializeHash : HashAlgorithm → Value
  | .blake3 => .str blake3Lit
  | .sha256 => .str sha256Lit

/-- Modelled from the spec: the `ArtifactFormat` collaborator
(`crate::fetch_method::ArtifactFormat`, not part of the provided
source).  Its documented default variant is the plain/uncompressed
single file; the repository's own test exercises the `tar` variant. -/
inductive ArtifactFormat where
  | plain : ArtifactFormat
  | tar : ArtifactFormat

/-- Wire name of the plain format. -/
def plainLit : Str := "plain".data

/-- Wire name of the tar format. -/
def tarLit : Str := "tar".data

/-- Modelled from the spec: deserialize an `ArtifactFormat` from its
wire name. -/
def deserializeFormat : Value → Except Str ArtifactFormat
  | .str s =>
    if s = plainLit then .ok .plain
    else if s = tarLit then .ok .tar
    else .error (wrongTypeMsg formatKey)
  | _ => .error (wrongTypeMsg formatKey)

/-- Serialize an `ArtifactFormat` back to its wire name. -/
def serializeFormat : ArtifactFormat → Value
  | .plain => .str plainLit
  | .tar => .str tarLit

/-- Is the character a lowercase hexadecimal digit? -/
def isHexLower (c : Char) : Bool :=
  c.isDigit || c = 'a' || c = 'b' || c = 'c' || c = 'd' || c = 'e' || c = 'f'

/-- Modelled from the spec: the `Digest` collaborator
(`crate::digest::Digest`, not part of the provided source): a
validated 64-character lowercase hexadecimal content digest. -/
structure Digest where
  hex : Str

/-- Modelled from the spec: deserialize a `Digest` from a value-tree
node, validating the hex form. -/
def deserializeDigest : Value → Except Str Digest
  | .str s =>
    if s.length = 64 && s.all isHexLower then .ok ⟨s⟩
    else .error (wrongTypeMsg digestKey)
  | _ => .error (wrongTypeMsg digestKey)

/-- Split a string at every slash. -/
def splitSlash : Str → List Str
  | [] => [[]]
  | c :: cs =>
    if c = '/' then [] :: splitSlash cs
    else
      match splitSlash cs with
      | [] => [[c]]
      | p :: ps => (c :: p) :: ps

/-- The parent-directory path component. -/
def dotDotLit : Str := "..".data

/-- Modelled from the spec: the `ArtifactPath` collaborator
(`crate::artifact_path::ArtifactPath`, not part of the provided
source): a relative path that is nonempty, not absolute, and free of
parent-directory traversal. -/
structure ArtifactPath where
  rel : Str

/-- Modelled from the spec: validity of an artifact path: no empty
component (which also rejects absolute paths) and no `..` component. -/
def isValidPath (s : Str) : Bool :=
  !s.isEmpty && (splitSlash s).all fun p => !p.isEmpty && p ≠ dotDotLit

/-- Modelled from the spec: deserialize an `ArtifactPath`, validating
its relative form. -/
def deserializePath : Value → Except Str ArtifactPath
  | .str s =>
    if isValidPath s then .ok ⟨s⟩
    else .error (wrongTypeMsg pathKey)
  | _ => .error (wrongTypeMsg pathKey)

/-- One above the largest `u64`. -/
def u64Bound : Int := 18446744073709551616

/-- Deserialize a `u64` (the `size` field): a nonnegative integer
below `2 ^ 64`. -/
def asU64 : Value → Except Str Nat
  | .num n =>
    if 0 ≤ n ∧ n < u64Bound then .ok n.toNat
    else .error (wrongTypeMsg sizeKey)
  | _ => .error (wrongTypeMsg sizeKey)

/-- The typed artifact entry of `config.rs` (`ArtifactEntry` with the
concrete `ArtifactFormat` format parameter). -/
structure ArtifactEntry where
  size : Nat
  hash : HashAlgorithm
  digest : Digest
  format : ArtifactFormat
  path : ArtifactPath
  providers : List Value
  readonly : Bool

/-- The typed manifest of `config.rs` (`ConfigFile`); the platform map
is embedded as an association list in document order. -/
structure ConfigFile where
  name : Str
  platforms : List (Str × ArtifactEntry)

/-- Deserialize an `ArtifactEntry` from a value-tree node, field by
field: `size`, `hash`, `digest`, `path` and `providers` are required;
`format` defaults to the plain variant and `readonly` to `true`
(`#[serde(default)]` and `readonly_default_as_true`); unknown keys are
ignored. -/
def deserializeEntry : Value → Except Str ArtifactEntry
  | .obj kvs =>
    match lookupKey kvs sizeKey with
    | none => .error (missingMsg sizeKey)
    | some sv =>
      match asU64 sv with
      | .error e => .error e
      | .ok size =>
        match lookupKey kvs hashKey with
        | none => .error (missingMsg hashKey)
        | some hv =>
          match deserializeHash hv with
          | .error e => .error e
          | .ok hash =>
            match lookupKey kvs digestKey with
            | none => .error (missingMsg digestKey)
            | some dv =>
              match deserializeDigest dv with
              | .error e => .error e
              | .ok digest =>
                match
                  (match lookupKey kvs formatKey with
                   | none => Except.ok ArtifactFormat.plain
                   | some fv => deserializeFormat fv) with
                | .error e => .error e
                | .ok format =>
                  match lookupKey kvs pathKey with
                  | none => .error (missingMsg pathKey)
                  | some pv =>
                    match deserializePath pv with
                    | .error e => .error e
                    | .ok path =>
                      match lookupKey kvs providersKey with
                      | none => .error (missingMsg providersKey)
                      | some prv =>
                        match prv with
                        | .arr providers =>
                          match
                            (match lookupKey kvs readonlyKey with
                             | none => Except.ok true
                             | some (.bool b) => Except.ok b
                             | some _ =>
                               Except.error (wrongTypeMsg readonlyKey)) with
                          | .error e => .error e
                          | .ok readonly =>
                            .ok ⟨size, hash, digest, format, path,
                                 providers, readonly⟩
                        | _ => .error (wrongTypeMsg providersKey)
  | _ => .error (wrongTypeMsg entryWord)

/-- Deserialize every platform entry of the `platforms` object, in
document order, failing on the first invalid entry. -/
def deserializeEntries :
    List (Str × Value) → Except Str (List (Str × ArtifactEntry))
  | [] => .ok []
  | (k, v) :: rest =>
    match deserializeEntry v with
    | .error e => .error e
    | .ok e =>
      match deserializeEntries rest with
      | .error e2 => .error e2
      | .ok es => .ok ((k, e) :: es)

/-- Deserialize a `ConfigFile` from a value-tree node: `name` must be
a string and `platforms` an object of artifact entries; both are
required; unknown keys are ignored. -/
def deserializeConfig : Value → Except Str ConfigFile
  | .obj kvs =>
    match lookupKey kvs nameKey with
    | none => .error (missingMsg nameKey)
    | some nv =>
      match nv with
      | .str n =>
        match lookupKey kvs platformsKey with
        | none => .error (missingMsg platformsKey)
        | some pv =>
          match pv with
          | .obj pkvs =>
            match deserializeEntries pkvs with
            | .error e => .error e
            | .ok ps => .ok ⟨n, ps⟩
          | _ => .error (wrongTypeMsg platformsKey)
      | _ => .error (wrongTypeMsg nameKey)
  | _ => .error (wrongTypeMsg documentWord)

/-- Serialize an `ArtifactEntry` back to a value tree, in declaration
order; the `readonly` field is omitted exactly when it is `true`
(`skip_serializing_if = "is_true"`). -/
def serializeEntryKvs (e : ArtifactEntry) : List (Str × Value) :=
  [(sizeKey, .num (e.size : Int)),
   (hashKey, serializeHash e.hash),
   (digestKey, .str e.digest.hex),
   (formatKey, serializeFormat e.format),
   (pathKey, .str e.path.rel),
   (providersKey, .arr e.providers)] ++
  (if e.readonly then [] else [(readonlyKey, .bool false)])

/-- Serialized form of an `ArtifactEntry` as a value-tree node. -/
def serializeEntry (e : ArtifactEntry) : Value := .obj (serializeEntryKvs e)

/-- The three failure stages of `parse_file`, in checking order:
the missing-or-malformed-header error (with its message), the document
syntactic error, and the schema validation error (with its message). -/
inductive ParseError where
  | header : Str → ParseError
  | document : ParseError
  | schema : Str → ParseError

/-- The opening words of the header error message. -/
def headerMsgPre : Str := "DotSlash file must start with `".data

/-- The closing backtick of the header error message. -/
def backtickLit : Str := "`".data

/-- The header error message,
`DotSlash file must start with `...``, which embeds the required
header literal. -/
def headerMsg : Str := headerMsgPre ++ REQUIRED_HEADER ++ backtickLit

/-- Embedding of `parse_file`: strip and check the header line, parse
the remainder as a permissive JSON document, deserialize the typed
manifest, and return the raw value tree together with the typed
manifest. -/
def parse_file (data : Str) : Except ParseError (Value × ConfigFile) :=
  match stripHeader data with
  | none => .error (.header headerMsg)
  | some rest =>
    match jsonFromStr rest with
    | none => .error .document
    | some v =>
      match deserializeConfig v with
      | .error e => .error (.schema e)
      | .ok c => .ok (v, c)

theorem stripPre_some (p : Str) :
    ∀ s r : Str, stripPre p s = some r ↔ s = p ++ r := by
  induction p with
  | nil => intro s r; simp [stripPre]
  | cons a ps ih =>
    intro s r
    cases s with
    | nil => simp [stripPre]
    | cons c cs =>
      simp only [stripPre, List.cons_append, List.cons.injEq]
      by_cases h : a = c
      · subst h; simp [ih]
      · rw [if_neg h]
        simp only [reduceCtorEq, false_iff, not_and]
        intro hc
        exact absurd hc.symm h

theorem stripHeader_some (d r : Str) :
    stripHeader d = some r ↔
      d = REQUIRED_HEADER ++ crlfLit ++ r ∨
      d = REQUIRED_HEADER ++ lfLit ++ r := by
  constructor
  · intro h
    unfold stripHeader at h
    split at h
    · cases h
    next rest h1 =>
      rw [stripPre_some] at h1
      split at h
      next r2 h2 =>
        cases h
        rw [stripPre_some] at h2
        exact Or.inl (by rw [h1, h2, List.append_assoc])
      next h2 =>
        rw [stripPre_some] at h
        exact Or.inr (by rw [h1, h, List.append_assoc])
  · intro h
    cases h with
    | inl h =>
      have h1 : stripPre REQUIRED_HEADER d = some (crlfLit ++ r) := by
        rw [stripPre_some, h, List.append_assoc]
      have h2 : stripPre crlfLit (crlfLit ++ r) = some r := by
        rw [stripPre_some]
      simp [stripHeader, h1, h2]
    | inr h =>
      have h1 : stripPre REQUIRED_HEADER d = some (lfLit ++ r) := by
        rw [stripPre_some, h, List.append_assoc]
      have h2 : stripPre crlfLit (lfLit ++ r) = none := by
        show (if '\r' = '\n' then stripPre ['\n'] r else none) = none
        rw [if_neg (by decide)]
      have h3 : stripPre lfLit (lfLit ++ r) = some r := by
        rw [stripPre_some]
      simp [stripHeader, h1, h2, h3]

/-- C1: `parse_file` passes the header stage exactly on inputs that
begin with the literal `#!/usr/bin/env dotslash` followed by CRLF or
LF; the stripped remainder is exactly the text after that terminator
and is what the document parser receives; on any other input the
result is the header error, whose message contains the header literal. -/
theorem c1_header_stage (data : Str) :
    (∀ r, stripHeader data = some r ↔
      (data = REQUIRED_HEADER ++ crlfLit ++ r ∨
       data = REQUIRED_HEADER ++ lfLit ++ r)) ∧
    (∀ r, stripHeader data = some r →
      parse_file data =
        (match jsonFromStr r with
         | none => .error .document
         | some v =>
           match deserializeConfig v with
           | .error e => .error (.schema e)
           | .ok c => .ok (v, c))) ∧
    (stripHeader data = none →
      parse_file data = .error (.header headerMsg) ∧
      ∃ a b, headerMsg = a ++ REQUIRED_HEADER ++ b) := by
  refine ⟨?_, ?_, ?_⟩
  · exact fun r => stripHeader_some data r
  · intro r h
    simp [parse_file, h]
  · intro h
    exact ⟨by simp [parse_file, h], headerMsgPre, backtickLit, rfl⟩

/-- C1 witness: a document consisting of the bare header with no line
terminator fails with the header error, whose message contains the
header literal. -/
theorem c1_header_stage_wit :
    parse_file REQUIRED_HEADER = .error (.header headerMsg) ∧
    ∃ a b, headerMsg = a ++ REQUIRED_HEADER ++ b :=
  (c1_header_stage REQUIRED_HEADER).2.2 rfl

/-- C2: the three failure kinds of `parse_file` are checked in the
fixed order header, then document syntax, then schema: a header
failure wins regardless of what follows; with a valid header an
unparseable remainder yields the document error; a schema error occurs
only when both earlier stages succeeded; and a failing parse never
returns a manifest. -/
theorem c2_stage_order (data : Str) :
    (stripHeader data = none →
      parse_file data = .error (.header headerMsg)) ∧
    (∀ r, stripHeader data = some r → jsonFromStr r = none →
      parse_file data = .error .document) ∧
    (∀ r v e, stripHeader data = some r → jsonFromStr r = some v →
      deserializeConfig v = .error e →
      parse_file data = .error (.schema e)) ∧
    (∀ e, parse_file data = .error (.schema e) →
      ∃ r v, stripHeader data = some r ∧ jsonFromStr r = some v ∧
        deserializeConfig v = .error e) ∧
    (∀ e p, parse_file data = .error e → parse_file data ≠ .ok p) := by
  refine ⟨?_, ?_, ?_, ?_, ?_⟩
  · intro h; simp [parse_file, h]
  · intro r h1 h2; simp [parse_file, h1, h2]
  · intro r v e h1 h2 h3; simp [parse_file, h1, h2, h3]
  · intro e h
    unfold parse_file at h
    split at h
    · cases h
    next r h1 =>
      split at h
      · cases h
      next v h2 =>
        split at h
        next e2 h3 =>
          cases h
          exact ⟨r, v, h1, h2, h3⟩
        next c h3 => cases h
  · intro e p h1 h2
    rw [h1] at h2
    cases h2

/-- C2 witness: a correct header followed by a lone opening brace
fails with the document syntax error. -/
theorem c2_stage_order_wit :
    parse_file (REQUIRED_HEADER ++ lfLit ++ ['\x7b']) = .error .document :=
  (c2_stage_order (REQUIRED_HEADER ++ lfLit ++ ['\x7b'])).2.1 ['\x7b'] rfl rfl

/-- C9: `parse_file` is a pure function of its input: the embedding is
a total computable function, so equal inputs give equal results and
the result depends on nothing but the input string. -/
theorem c9_deterministic (a b : Str) (h : a = b) :
    parse_file a = parse_file b := by rw [h]

/-- C9 witness: determinism at a concrete input. -/
theorem c9_deterministic_wit :
    parse_file REQUIRED_HEADER = parse_file REQUIRED_HEADER :=
  c9_deterministic REQUIRED_HEADER REQUIRED_HEADER rfl

/-- A concrete 64-character hexadecimal digest (from the repository's
own tests). -/
def d64Lit : Str :=
  "7f83b1657ff1fc53b92dc18148a1d65dfc2d4b1fa3d677284addd200126d9069".data

/-- A concrete valid artifact path. -/
def binTLit : Str := "bin/t".data

/-- A minimal valid artifact-entry object carrying exactly the five
required fields, with the providers array left as a parameter. -/
def entryKvs (xs : List Value) : List (Str × Value) :=
  [(sizeKey, .num 123), (hashKey, .str sha256Lit), (digestKey, .str d64Lit),
   (pathKey, .str binTLit), (providersKey, .arr xs)]

/-- The typed entry that `entryKvs` deserializes to: optional fields
take their defaults. -/
def entryOf (xs : List Value) : ArtifactEntry :=
  ⟨123, .sha256, ⟨d64Lit⟩, .plain, ⟨binTLit⟩, xs, true⟩

/-- C3: an absent `readonly` key deserializes to `readonly = true`; an
explicit `false` deserializes to `false`; serialization omits the
`readonly` field exactly when the value is `true` and emits an
explicit `false` otherwise. -/
theorem c3_readonly_roundtrip :
    (∀ kvs e, lookupKey kvs readonlyKey = none →
      deserializeEntry (.obj kvs) = .ok e → e.readonly = true) ∧
    (∀ kvs e, lookupKey kvs readonlyKey = some (.bool false) →
      deserializeEntry (.obj kvs) = .ok e → e.readonly = false) ∧
    (∀ a : ArtifactEntry, a.readonly = true →
      lookupKey (serializeEntryKvs a) readonlyKey = none) ∧
    (∀ a : ArtifactEntry, a.readonly = false →
      lookupKey (serializeEntryKvs a) readonlyKey = some (.bool false)) := by
  refine ⟨?_, ?_, ?_, ?_⟩
  · intro kvs e hro hok
    simp only [deserializeEntry, hro] at hok
    repeat' split at hok
    all_goals cases hok
    all_goals rfl
  · intro kvs e hro hok
    simp only [deserializeEntry, hro] at hok
    repeat' split at hok
    all_goals cases hok
    all_goals rfl
  · intro a h
    obtain ⟨sz, ha, dg, fm, pa, pr, ro⟩ := a
    cases h
    rfl
  · intro a h
    obtain ⟨sz, ha, dg, fm, pa, pr, ro⟩ := a
    cases h
    rfl

/-- C3 witness: the minimal entry (no `readonly` key) deserializes
with `readonly = true`, and its serialization carries no `readonly`
key. -/
theorem c3_readonly_roundtrip_wit :
    (entryOf []).readonly = true ∧
    lookupKey (serializeEntryKvs (entryOf [])) readonlyKey = none :=
  ⟨c3_readonly_roundtrip.1 (entryKvs []) (entryOf []) rfl rfl,
   c3_readonly_roundtrip.2.2.1 (entryOf []) rfl⟩

/-- The unrecognized hash name `md5`. -/
def md5Lit : Str := "md5".data

/-- C4: the hash field is matched case-sensitively against the closed
two-value enumeration: `blake3` and `sha256` parse to their tags,
every other string fails, and a successfully deserialized entry can
only carry one of the two recognized tags. -/
theorem c4_hash_enum :
    deserializeHash (.str blake3Lit) = .ok .blake3 ∧
    deserializeHash (.str sha256Lit) = .ok .sha256 ∧
    (∀ s : Str, s ≠ blake3Lit → s ≠ sha256Lit →
      deserializeHash (.str s) = .error unknownHashMsg) ∧
    (∀ kvs e s, lookupKey kvs hashKey = some (.str s) →
      deserializeEntry (.obj kvs) = .ok e →
      (s = blake3Lit ∧ e.hash = .blake3) ∨
      (s = sha256Lit ∧ e.hash = .sha256)) := by
  refine ⟨rfl, rfl, ?_, ?_⟩
  · intro s h1 h2
    simp [deserializeHash, h1, h2]
  · intro kvs e s hh hok
    have hh2 : deserializeHash (.str s) = .ok e.hash := by
      simp only [deserializeEntry, hh] at hok
      repeat' split at hok
      all_goals cases hok
      all_goals assumption
    simp only [deserializeHash] at hh2
    split at hh2
    next h1 =>
      injection hh2 with h3
      exact Or.inl ⟨h1, h3.symm⟩
    next h1 =>
      split at hh2
      next h2 =>
        injection hh2 with h3
        exact Or.inr ⟨h2, h3.symm⟩
      next h2 => simp at hh2

/-- C4 witness: the unrecognized hash name `md5` fails. -/
theorem c4_hash_enum_wit :
    deserializeHash (.str md5Lit) = .error unknownHashMsg :=
  c4_hash_enum.2.2.1 md5Lit (by decide) (by decide)

/-- C7: an absent `format` key yields the default plain variant, and a
recognized format string parses to its variant and re-serializes to
the same string unchanged. -/
theorem c7_format_default :
    (∀ kvs e, lookupKey kvs formatKey = none →
      deserializeEntry (.obj kvs) = .ok e → e.format = .plain) ∧
    (∀ s f, deserializeFormat (.str s) = .ok f →
      serializeFormat f = .str s) ∧
    (∀ f, deserializeFormat (serializeFormat f) = .ok f) := by
  refine ⟨?_, ?_, ?_⟩
  · intro kvs e hf hok
    simp only [deserializeEntry, hf] at hok
    repeat' split at hok
    all_goals cases hok
    all_goals rfl
  · intro s f h
    simp only [deserializeFormat] at h
    split at h
    next h1 =>
      cases h
      subst h1
      rfl
    next h1 =>
      split at h
      next h2 =>
        cases h
        subst h2
        rfl
      next h2 => cases h
  · intro f
    cases f <;> rfl

/-- C7 witness: the minimal entry (no `format` key) deserializes with
the plain format, and the recognized `tar` wire name round-trips. -/
theorem c7_format_default_wit :
    (entryOf []).format = .plain ∧ serializeFormat .tar = .str tarLit :=
  ⟨c7_format_default.1 (entryKvs []) (entryOf []) rfl rfl,
   c7_format_default.2.1 tarLit .tar rfl⟩

theorem asU64_wrongKind (v : Value) (h : ∀ n, v ≠ .num n) :
    asU64 v = .error (wrongTypeMsg sizeKey) := by
  cases v
  case num n => exact absurd rfl (h n)
  all_goals rfl

theorem deserializeHash_wrongKind (v : Value) (h : ∀ s, v ≠ .str s) :
    deserializeHash v = .error (wrongTypeMsg hashKey) := by
  cases v
  case str s => exact absurd rfl (h s)
  all_goals rfl

theorem deserializeDigest_wrongKind (v : Value) (h : ∀ s, v ≠ .str s) :
    deserializeDigest v = .error (wrongTypeMsg digestKey) := by
  cases v
  case str s => exact absurd rfl (h s)
  all_goals rfl

theorem deserializePath_wrongKind (v : Value) (h : ∀ s, v ≠ .str s) :
    deserializePath v = .error (wrongTypeMsg pathKey) := by
  cases v
  case str s => exact absurd rfl (h s)
  all_goals rfl

/-- C5: deserialization fails whenever a required field is absent or
carries a value of the wrong kind — `name` and `platforms` at the top
level; `size`, `hash`, `digest`, `path` and `providers` in an artifact
entry — while an entry with exactly the required fields succeeds, with
`format` and `readonly` taking their documented defaults. -/
theorem c5_required_fields :
    (∀ kvs, lookupKey kvs nameKey = none →
      ∀ c, deserializeConfig (.obj kvs) ≠ .ok c) ∧
    (∀ kvs v, lookupKey kvs nameKey = some v → (∀ s, v ≠ .str s) →
      ∀ c, deserializeConfig (.obj kvs) ≠ .ok c) ∧
    (∀ kvs, lookupKey kvs platformsKey = none →
      ∀ c, deserializeConfig (.obj kvs) ≠ .ok c) ∧
    (∀ kvs v, lookupKey kvs platformsKey = some v → (∀ l, v ≠ .obj l) →
      ∀ c, deserializeConfig (.obj kvs) ≠ .ok c) ∧
    (∀ kvs, lookupKey kvs sizeKey = none →
      ∀ e, deserializeEntry (.obj kvs) ≠ .ok e) ∧
    (∀ kvs v, lookupKey kvs sizeKey = some v → (∀ n, v ≠ .num n) →
      ∀ e, deserializeEntry (.obj kvs) ≠ .ok e) ∧
    (∀ kvs, lookupKey kvs hashKey = none →
      ∀ e, deserializeEntry (.obj kvs) ≠ .ok e) ∧
    (∀ kvs v, lookupKey kvs hashKey = some v → (∀ s, v ≠ .str s) →
      ∀ e, deserializeEntry (.obj kvs) ≠ .ok e) ∧
    (∀ kvs, lookupKey kvs digestKey = none →
      ∀ e, deserializeEntry (.obj kvs) ≠ .ok e) ∧
    (∀ kvs v, lookupKey kvs digestKey = some v → (∀ s, v ≠ .str s) →
      ∀ e, deserializeEntry (.obj kvs) ≠ .ok e) ∧
    (∀ kvs, lookupKey kvs pathKey = none →
      ∀ e, deserializeEntry (.obj kvs) ≠ .ok e) ∧
    (∀ kvs v, lookupKey kvs pathKey = some v → (∀ s, v ≠ .str s) →
      ∀ e, deserializeEntry (.obj kvs) ≠ .ok e) ∧
    (∀ kvs, lookupKey kvs providersKey = none →
      ∀ e, deserializeEntry (.obj kvs) ≠ .ok e) ∧
    (∀ kvs v, lookupKey kvs providersKey = some v → (∀ l, v ≠ .arr l) →
      ∀ e, deserializeEntry (.obj kvs) ≠ .ok e) ∧
    (∀ xs, deserializeEntry (.obj (entryKvs xs)) = .ok (entryOf xs)) := by
  refine ⟨?_, ?_, ?_, ?_, ?_, ?_, ?_, ?_, ?_, ?_, ?_, ?_, ?_, ?_, ?_⟩
  · intro kvs h c hok
    simp only [deserializeConfig, h] at hok
    cases hok
  · intro kvs v h hv c hok
    simp only [deserializeConfig, h] at hok
    repeat' split at hok
    all_goals (try cases hok)
    all_goals exact absurd rfl (hv _)
  · intro kvs h c hok
    simp only [deserializeConfig, h] at hok
    repeat' split at hok
    all_goals cases hok
  · intro kvs v h hv c hok
    simp only [deserializeConfig, h] at hok
    repeat' split at hok
    all_goals (try cases hok)
    all_goals exact absurd rfl (hv _)
  · intro kvs h e hok
    simp only [deserializeEntry, h] at hok
    cases hok
  · intro kvs v h hv e hok
    simp only [deserializeEntry, h, asU64_wrongKind v hv] at hok
    cases hok
  · intro kvs h e hok
    simp only [deserializeEntry, h] at hok
    repeat' split at hok
    all_goals cases hok
  · intro kvs v h hv e hok
    simp only [deserializeEntry, h, deserializeHash_wrongKind v hv] at hok
    repeat' split at hok
    all_goals cases hok
  · intro kvs h e hok
    simp only [deserializeEntry, h] at hok
    repeat' split at hok
    all_goals cases hok
  · intro kvs v h hv e hok
    simp only [deserializeEntry, h, deserializeDigest_wrongKind v hv] at hok
    repeat' split at hok
    all_goals cases hok
  · intro kvs h e hok
    simp only [deserializeEntry, h] at hok
    repeat' split at hok
    all_goals cases hok
  · intro kvs v h hv e hok
    simp only [deserializeEntry, h, deserializePath_wrongKind v hv] at hok
    repeat' split at hok
    all_goals cases hok
  · intro kvs h e hok
    simp only [deserializeEntry, h] at hok
    repeat' split at hok
    all_goals cases hok
  · intro kvs v h hv e hok
    simp only [deserializeEntry, h] at hok
    repeat' split at hok
    all_goals (try cases hok)
    all_goals exact absurd rfl (hv _)
  · intro xs
    rfl

/-- C5 witness: the empty object is missing `name` and is rejected,
and the minimal five-field entry deserializes to the entry with
defaulted `format` and `readonly`. -/
theorem c5_required_fields_wit :
    (deserializeConfig (.obj []) ≠ .ok ⟨[], []⟩) ∧
    deserializeEntry (.obj (entryKvs [])) = .ok (entryOf []) :=
  ⟨c5_required_fields.1 [] rfl ⟨[], []⟩,
   c5_required_fields.2.2.2.2.2.2.2.2.2.2.2.2.2.2 []⟩

/-- The post-header text of a document whose `platforms` object is
empty. -/
def json8 : Str := "\x7b\"name\":\"t\",\"platforms\":\x7b\x7d\x7d".data

/-- A complete document whose `platforms` object is empty. -/
def doc8 : Str := REQUIRED_HEADER ++ lfLit ++ json8

/-- The name `t` used by the concrete documents. -/
def tLit : Str := "t".data

/-- C8: a document whose `platforms` value is the empty object parses
successfully to a manifest with an empty platform map, while a
document lacking the `platforms` key, or giving it a non-object value,
fails schema validation. -/
theorem c8_empty_platforms :
    parse_file doc8 =
      .ok (.obj [(nameKey, .str tLit), (platformsKey, .obj [])],
           ⟨tLit, []⟩) ∧
    (∀ kvs, lookupKey kvs platformsKey = none →
      ∀ c, deserializeConfig (.obj kvs) ≠ .ok c) ∧
    (∀ kvs v, lookupKey kvs platformsKey = some v → (∀ l, v ≠ .obj l) →
      ∀ c, deserializeConfig (.obj kvs) ≠ .ok c) := by
  refine ⟨rfl, ?_, ?_⟩
  · intro kvs h c hok
    simp only [deserializeConfig, h] at hok
    repeat' split at hok
    all_goals cases hok
  · intro kvs v h hv c hok
    simp only [deserializeConfig, h] at hok
    repeat' split at hok
    all_goals (try cases hok)
    all_goals exact absurd rfl (hv _)

/-- C8 witness: an object carrying only `name` (no `platforms` key) is
rejected. -/
theorem c8_empty_platforms_wit :
    deserializeConfig (.obj [(nameKey, .str tLit)]) ≠ .ok ⟨tLit, []⟩ :=
  c8_empty_platforms.2.1 [(nameKey, .str tLit)] rfl ⟨tLit, []⟩

theorem lookup_removeKey (k k' : Str) (h : k' ≠ k) :
    ∀ l, lookupKey (removeKey k l) k' = lookupKey l k' := by
  intro l
  induction l with
  | nil => rfl
  | cons kv rest ih =>
    obtain ⟨a, v⟩ := kv
    by_cases ha : a = k
    · subst ha
      have h1 : removeKey a ((a, v) :: rest) = removeKey a rest := by
        simp [removeKey]
      rw [h1, ih]
      simp only [lookupKey]
      rw [if_neg (fun hc => h hc.symm)]
    · have h1 : removeKey k ((a, v) :: rest) = (a, v) :: removeKey k rest := by
        simp [removeKey, ha]
      rw [h1]
      simp only [lookupKey, ih]

/-- C10: unknown keys are ignored, never an error: removing every pair
carrying an unrecognized key — at the top level or inside an artifact
entry — leaves the deserialization result unchanged, so a document
with extra keys deserializes exactly as the document without them. -/
theorem c10_unknown_ignored :
    (∀ kvs (k : Str), k ≠ nameKey → k ≠ platformsKey →
      deserializeConfig (.obj (removeKey k kvs)) =
        deserializeConfig (.obj kvs)) ∧
    (∀ kvs (k : Str), k ≠ sizeKey → k ≠ hashKey → k ≠ digestKey →
      k ≠ formatKey → k ≠ pathKey → k ≠ providersKey → k ≠ readonlyKey →
      deserializeEntry (.obj (removeKey k kvs)) =
        deserializeEntry (.obj kvs)) := by
  constructor
  · intro kvs k h1 h2
    simp only [deserializeConfig]
    rw [lookup_removeKey k nameKey (Ne.symm h1) kvs,
        lookup_removeKey k platformsKey (Ne.symm h2) kvs]
  · intro kvs k h1 h2 h3 h4 h5 h6 h7
    simp only [deserializeEntry]
    rw [lookup_removeKey k sizeKey (Ne.symm h1) kvs,
        lookup_removeKey k hashKey (Ne.symm h2) kvs,
        lookup_removeKey k digestKey (Ne.symm h3) kvs,
        lookup_removeKey k formatKey (Ne.symm h4) kvs,
        lookup_removeKey k pathKey (Ne.symm h5) kvs,
        lookup_removeKey k providersKey (Ne.symm h6) kvs,
        lookup_removeKey k readonlyKey (Ne.symm h7) kvs]

/-- The misspelled key `writeable` of the source's comment: it parses
as a different, safely ignored field. -/
def writeableLit : Str := "writeable".data

/-- C10 witness: an entry carrying an extra misspelled `writeable` key
deserializes exactly as the entry without it. -/
theorem c10_unknown_ignored_wit :
    deserializeEntry
        (.obj (removeKey writeableLit
          (entryKvs [] ++ [(writeableLit, .bool false)]))) =
      deserializeEntry (.obj (entryKvs [] ++ [(writeableLit, .bool false)])) :=
  c10_unknown_ignored.2 (entryKvs [] ++ [(writeableLit, .bool false)])
    writeableLit (by decide) (by decide) (by decide) (by decide) (by decide)
    (by decide) (by decide)

theorem deserializeEntry_shape (v : Value) (e : ArtifactEntry)
    (h : deserializeEntry v = .ok e) :
    ∃ ekvs, v = .obj ekvs ∧
      lookupKey ekvs providersKey = some (.arr e.providers) := by
  cases v with
  | obj kvs =>
    refine ⟨kvs, rfl, ?_⟩
    simp only [deserializeEntry] at h
    repeat' split at h
    all_goals cases h
    all_goals assumption
  | null => cases h
  | bool b => cases h
  | num n => cases h
  | str s => cases h
  | arr l => cases h

theorem deserializeEntries_spec :
    ∀ l ps, deserializeEntries l = .ok ps →
      List.Forall₂
        (fun kv ke => kv.1 = ke.1 ∧ deserializeEntry kv.2 = Except.ok ke.2)
        l ps := by
  intro l
  induction l with
  | nil =>
    intro ps h
    simp only [deserializeEntries] at h
    cases h
    exact List.Forall₂.nil
  | cons kv rest ih =>
    intro ps h
    obtain ⟨k, v⟩ := kv
    simp only [deserializeEntries] at h
    split at h
    · cases h
    next e he =>
      split at h
      · cases h
      next es hes =>
        cases h
        exact List.Forall₂.cons ⟨rfl, he⟩ (ih es hes)

theorem deserializeConfig_ok (v : Value) (c : ConfigFile)
    (h : deserializeConfig v = .ok c) :
    ∃ kvs pkvs, v = .obj kvs ∧
      lookupKey kvs platformsKey = some (.obj pkvs) ∧
      deserializeEntries pkvs = .ok c.platforms := by
  cases v with
  | obj kvs =>
    simp only [deserializeConfig] at h
    repeat' split at h
    all_goals (try cases h)
    exact ⟨kvs, _, rfl, by assumption, by assumption⟩
  | null => cases h
  | bool b => cases h
  | num n => cases h
  | str s => cases h
  | arr l => cases h

/-- C6: the `providers` array of an entry is accepted whatever the
shape of its elements and is stored verbatim in the typed entry; on
success `parse_file` returns the raw value tree of the post-header
text paired with the typed manifest, and the provider values are
recoverable unchanged from that raw tree. -/
theorem c6_providers_verbatim :
    (∀ xs, deserializeEntry (.obj (entryKvs xs)) = .ok (entryOf xs)) ∧
    (∀ kvs xs e, lookupKey kvs providersKey = some (.arr xs) →
      deserializeEntry (.obj kvs) = .ok e → e.providers = xs) ∧
    (∀ data r v c, stripHeader data = some r →
      parse_file data = .ok (v, c) →
      jsonFromStr r = some v ∧ deserializeConfig v = .ok c) ∧
    (∀ data v c, parse_file data = .ok (v, c) →
      ∃ kvs pkvs, v = .obj kvs ∧
        lookupKey kvs platformsKey = some (.obj pkvs) ∧
        List.Forall₂ (fun kv ke => kv.1 = ke.1 ∧
          ∃ ekvs, kv.2 = .obj ekvs ∧
            lookupKey ekvs providersKey = some (.arr ke.2.providers))
          pkvs c.platforms) := by
  refine ⟨fun xs => rfl, ?_, ?_, ?_⟩
  · intro kvs xs e h hok
    simp only [deserializeEntry, h] at hok
    repeat' split at hok
    all_goals cases hok
    all_goals rfl
  · intro data r v c h1 h
    unfold parse_file at h
    rw [h1] at h
    simp only [] at h
    split at h
    · cases h
    next v2 h2 =>
      split at h
      next e h3 => cases h
      next c2 h3 =>
        cases h
        exact ⟨h2, h3⟩
  · intro data v c h
    have hc : deserializeConfig v = .ok c := by
      unfold parse_file at h
      split at h
      · cases h
      next rest h1 =>
        split at h
        · cases h
        next v2 h2 =>
          split at h
          next e h3 => cases h
          next c2 h3 =>
            cases h
            exact h3
    obtain ⟨kvs, pkvs, hv, hp, hes⟩ := deserializeConfig_ok v c hc
    subst hv
    refine ⟨kvs, pkvs, rfl, hp, ?_⟩
    refine List.Forall₂.imp ?_ (deserializeEntries_spec pkvs c.platforms hes)
    rintro kv ke ⟨hk1, hk2⟩
    obtain ⟨ekvs, hek, hpr⟩ := deserializeEntry_shape kv.2 ke.2 hk2
    exact ⟨hk1, ekvs, hek, hpr⟩

/-- Key `type` of the HTTP-like provider. -/
def typeLit : Str := "type".data

/-- Provider value `http`. -/
def httpLit : Str := "http".data

/-- Key `url` of the HTTP-like provider. -/
def urlLit : Str := "url".data

/-- Provider value `https://x`. -/
def httpsxLit : Str := "https://x".data

/-- Key `kind` of the second, differently shaped provider. -/
def kindLit : Str := "kind".data

/-- Provider value `other`. -/
def otherLit : Str := "other".data

/-- Key `n` of the second provider. -/
def nLit : Str := "n".data

/-- The platform key `linux-x86_64`. -/
def linuxLit : Str := "linux-x86_64".data

/-- An HTTP-like provider object. -/
def provA : Value := .obj [(typeLit, .str httpLit), (urlLit, .str httpsxLit)]

/-- A provider object of a different, undeclared shape. -/
def provB : Value := .obj [(kindLit, .str otherLit), (nLit, .num 1)]

/-- The post-header text of a document with two heterogeneous
providers. -/
def jsonC6 : Str :=
  "\x7b\"name\":\"t\",\"platforms\":\x7b\"linux-x86_64\":\x7b\"size\":123,\"hash\":\"sha256\",\"digest\":\"7f83b1657ff1fc53b92dc18148a1d65dfc2d4b1fa3d677284addd200126d9069\",\"path\":\"bin/t\",\"providers\":[\x7b\"type\":\"http\",\"url\":\"https://x\"\x7d,\x7b\"kind\":\"other\",\"n\":1\x7d]\x7d\x7d\x7d".data

/-- A complete document with two heterogeneous providers. -/
def docC6 : Str := REQUIRED_HEADER ++ lfLit ++ jsonC6

/-- The raw value tree of `docC6`. -/
def vC6 : Value :=
  .obj [(nameKey, .str tLit),
        (platformsKey, .obj [(linuxLit, .obj (entryKvs [provA, provB]))])]

/-- The typed manifest of `docC6`. -/
def cC6 : ConfigFile := ⟨tLit, [(linuxLit, entryOf [provA, provB])]⟩

set_option maxRecDepth 10000 in
/-- C6 witness: the two-provider document parses, and both provider
values are recoverable unchanged from the raw value tree. -/
theorem c6_providers_verbatim_wit :
    ∃ kvs pkvs, vC6 = .obj kvs ∧
      lookupKey kvs platformsKey = some (.obj pkvs) ∧
      List.Forall₂ (fun kv ke => kv.1 = ke.1 ∧
        ∃ ekvs, kv.2 = .obj ekvs ∧
          lookupKey ekvs providersKey = some (.arr ke.2.providers))
        pkvs cC6.platforms :=
  c6_providers_verbatim.2.2.2 docC6 vC6 cC6 rfl
